import Mathlib

/-!
# Verification of the `combustion` library's postprocessing logic

A shallow embedding, in Lean 4, of the tensor-level postprocessing code of the
`combustion` repository:

* `src/combustion/util/plot.py` — `apply_colormap`, `alpha_blend`;
* `src/combustion/nn/modules/fcos.py` — `BaseFCOSDecoder`, `FCOSDecoder`
  (`forward`, `postprocess`, `reduce_heatmaps`);
* `src/combustion/nn/modules/global_attention_upsample.py` — `_AttentionUpsample`;
* `src/combustion/models/efficientdet_fcos.py` — `FCOSMixin.create_boxes` /
  `EfficientDetFCOS.create_boxes`.

Tensors are modelled as shapes together with total indexing functions into `ℚ`
(the float arithmetic of the claims under study is exact: additions,
multiplications, comparisons, `min`/`max` clamps and divisions of
representable values; transcendental maps such as `torch.sigmoid` and
`torch.sqrt` are carried as explicit function parameters).  Fallible Python
code is embedded into `Except PyErr`, with Python name-resolution faults
(`NameError`, `UnboundLocalError`) made explicit where the source references
names that are never bound.
-/

namespace Combustion

/-- Python exceptions raised by the embedded code paths. -/
inductive PyErr where
  | valueError (msg : String)
  | nameError (name : String)
  | typeError (msg : String)
  | unboundLocalError (name : String)
  | indexError
  | assertionError
  | runtimeError (msg : String)
  deriving Repr, DecidableEq

/-- An N-dimensional tensor: a shape together with a total indexing function.
Only the values at multi-indices that are in range for `shape` are meaningful. -/
structure TensorN where
  shape : List Nat
  val : List Nat → ℚ

/-- A 4-dimensional tensor `(N, C, H, W)`, the layout used by every heatmap in
`fcos.py` (batch, channel, height, width). -/
structure Heatmap where
  b : Nat
  c : Nat
  h : Nat
  w : Nat
  val : Nat → Nat → Nat → Nat → ℚ

/-- Elementwise map over a heatmap (e.g. `torch.sigmoid(level_cls)`). -/
def mapHeatmap (f : ℚ → ℚ) (hm : Heatmap) : Heatmap :=
  { hm with val := fun b c y x => f (hm.val b c y x) }

/- ----------------------------------------------------------------------
## `combustion/util/plot.py`
---------------------------------------------------------------------- -/

/-- The success payload of `apply_colormap` (plot.py lines 31-41): the output
shape is the input shape with the channel dimension replaced by 4, and the
value at `(i, ch, rest)` is channel `ch` of the colormap applied to the input
value at `(i, 0, rest)` — the composition of `flatten`, per-batch-element
colormapping, `transpose_(0, 1)`, `torch.stack` and `view(*output_shape)`. -/
def colormapOutput (cm : ℚ → Fin 4 → ℚ) (inputs : TensorN) (b : Nat) (rest : List Nat) :
    TensorN :=
  { shape := b :: 4 :: rest
    val := fun idx =>
      match idx with
      | i :: ch :: r =>
        if h4 : ch < 4 then cm (inputs.val (i :: 0 :: r)) ⟨ch, h4⟩ else 0
      | _ => 0 }

/-- `apply_colormap` (plot.py lines 11-41).  `cm` stands for the Matplotlib
colormap `cm.get_cmap(cmap)`, which maps one scalar to an RGBA quadruple; it
is framework-supplied and passed in as a parameter.

Control flow of the source, in order:
* `inputs.shape[channel_dim]` with `channel_dim = 1` raises `IndexError` when
  the input has fewer than two dimensions;
* a shape whose dimension 1 is not `1` raises `ValueError`;
* the loop `for batch_elem in _` iterates over dimension 0 of
  `inputs.flatten(start_dim=1, end_dim=-1).numpy()`; when dimension 0 is `0`
  the list `output` stays empty and `torch.stack([])` raises
  `RuntimeError("stack expects a non-empty TensorList")`;
* otherwise each batch element is colormapped to `(prod(rest), 4)`,
  transposed to `(4, prod(rest))`, stacked to `(B, 4, prod(rest))` and viewed
  as `output_shape = [B, 4, *rest]`, so the value at `(i, ch, rest)` is
  channel `ch` of the colormap applied to the input value at `(i, 0, rest)`. -/
def apply_colormap (cm : ℚ → Fin 4 → ℚ) (inputs : TensorN) : Except PyErr TensorN :=
  match inputs.shape with
  | [] => .error .indexError
  | [_] => .error .indexError
  | b :: c :: rest =>
    if c ≠ 1 then
      .error (.valueError "Expected channel size = 1")
    else if b = 0 then
      .error (.runtimeError "stack expects a non-empty TensorList")
    else
      .ok (colormapOutput cm inputs b rest)

/-- The `Union[float, Tensor]` alpha arguments of `alpha_blend`. -/
inductive AlphaArg where
  | scalar (q : ℚ)
  | tensor (t : TensorN)

/-- `alpha_blend` (plot.py lines 44-92).  Checks `src.shape == dest.shape`,
checks each tensor-valued alpha against the corresponding input's shape,
expands scalar alphas to the source shape, and then computes pointwise

  `output_alpha    = src_alpha + (1 - src_alpha) * dest_alpha`
  `output_channels = (src * src_alpha + (1 - src_alpha) * dest * dest_alpha) / output_alpha`.

(The in-place `mul_` / `div_` calls of the source act on freshly allocated
intermediates, so the pointwise formulas above are their exact semantics.) -/
def alpha_blend (src dest : TensorN) (src_alpha dest_alpha : AlphaArg) :
    Except PyErr (TensorN × TensorN) := do
  if src.shape ≠ dest.shape then
    throw (.valueError "src and dest shape mismatch")
  let sa : List Nat → ℚ ←
    match src_alpha with
    | .tensor t =>
      if t.shape ≠ src.shape then
        throw (.valueError "src and src_alpha shape mismatch")
      else
        pure t.val
    | .scalar q => pure fun _ => q
  let da : List Nat → ℚ ←
    match dest_alpha with
    | .tensor t =>
      if t.shape ≠ dest.shape then
        throw (.valueError "dest and dest_alpha shape mismatch")
      else
        pure t.val
    | .scalar q => pure fun _ => q
  let output_alpha : List Nat → ℚ := fun idx => sa idx + (1 - sa idx) * da idx
  let output_channels : List Nat → ℚ := fun idx =>
    (src.val idx * sa idx + (1 - sa idx) * dest.val idx * da idx) / output_alpha idx
  pure ({ shape := src.shape, val := output_channels },
        { shape := src.shape, val := output_alpha })

/- ----------------------------------------------------------------------
## `combustion/nn/modules/fcos.py` — `FCOSDecoder.postprocess`
---------------------------------------------------------------------- -/

/-- One candidate box row as built by `postprocess` (fcos.py line 239):
`torch.cat([coords, raw_score, scaled_score, cls], dim=-1)` together with the
entry of `batch_idx` recorded alongside it (line 240). -/
structure Cand where
  x1 : ℚ
  y1 : ℚ
  x2 : ℚ
  y2 : ℚ
  raw : ℚ
  scaled : ℚ
  cls : Nat
  batch : Nat
  deriving Repr, DecidableEq

/-- Default candidate used for out-of-range `getD` indexing. -/
def cand0 : Cand :=
  { x1 := 0, y1 := 0, x2 := 0, y2 := 0, raw := 0, scaled := 0, cls := 0, batch := 0 }

/-- `(level_cls >= threshold).nonzero(as_tuple=False)` (fcos.py line 217):
the `(batch, cls, y, x)` indices whose value is `≥ τ`, in row-major
(lexicographic) order, which is the order `torch.nonzero` returns. -/
def positiveLocations (hm : Heatmap) (τ : ℚ) : List (Nat × Nat × Nat × Nat) :=
  (List.range hm.b).flatMap fun b =>
    (List.range hm.c).flatMap fun c =>
      (List.range hm.h).flatMap fun y =>
        (List.range hm.w).filterMap fun x =>
          if τ ≤ hm.val b c y x then some (b, c, y, x) else none

/-- The per-location box construction of `postprocess` (fcos.py lines 222-239),
for one row `(b, c, y, x)` of `positive_locations`:

* `raw_score = level_cls[batch, cls, y, x]` (line 224);
* `scaled_score = (level_cls * level_centerness.expand_as(level_cls)).sqrt_()`
  indexed at `[batch, cls, y, x]` (lines 214, 225) — the expanded centerness
  takes its value from channel 0;
* `base = (positive_locations[..., (-1, -2)] * stride).add_(int(stride / 2)).repeat(1, 2)`
  (line 229), i.e. `(x*s + s//2, y*s + s//2, x*s + s//2, y*s + s//2)`;
* `offset = level_reg[batch, :, y, x].view_as(base)` with
  `offset[..., :2].neg_()` (lines 230-231), i.e. `(-l, -t, r, b)` where
  `(l, t, r, b)` are regression channels `0..3`;
* `coords = (base + offset).clamp_min_(0)`, then `coords[..., 2].clamp_max_(x_lim)`
  and `coords[..., 3].clamp_max_(y_lim)` (lines 234-236).

`sqrtFn` stands for the framework's `torch.sqrt`. -/
def decodeLocation (stride : Nat) (x_lim y_lim : ℚ) (lcls lreg lcent : Heatmap)
    (sqrtFn : ℚ → ℚ) (loc : Nat × Nat × Nat × Nat) : Cand :=
  let b := loc.1
  let c := loc.2.1
  let y := loc.2.2.1
  let x := loc.2.2.2
  let half : ℚ := ((stride / 2 : Nat) : ℚ)
  let baseX : ℚ := ((x * stride : Nat) : ℚ) + half
  let baseY : ℚ := ((y * stride : Nat) : ℚ) + half
  let offX1 : ℚ := - lreg.val b 0 y x
  let offY1 : ℚ := - lreg.val b 1 y x
  let offX2 : ℚ := lreg.val b 2 y x
  let offY2 : ℚ := lreg.val b 3 y x
  { x1 := max 0 (baseX + offX1)
    y1 := max 0 (baseY + offY1)
    x2 := min (max 0 (baseX + offX2)) x_lim
    y2 := min (max 0 (baseY + offY2)) y_lim
    raw := lcls.val b c y x
    scaled := sqrtFn (lcls.val b c y x * lcent.val b 0 y x)
    cls := c
    batch := b }

/-- One iteration of the level loop of `postprocess` (fcos.py lines 207-240):
optionally sigmoid the classification and centerness maps (lines 209-211),
select the positive locations, and decode each one into a candidate box.
A level with no positive location contributes the empty list (`continue`,
lines 219-220).  `sigmoid` stands for the framework's `torch.sigmoid`. -/
def levelCandidates (from_logits : Bool) (sigmoid sqrtFn : ℚ → ℚ)
    (τ x_lim y_lim : ℚ) (stride : Nat) (lcls lreg lcent : Heatmap) : List Cand :=
  let lcls' := if from_logits then mapHeatmap sigmoid lcls else lcls
  let lcent' := if from_logits then mapHeatmap sigmoid lcent else lcent
  (positiveLocations lcls' τ).map (decodeLocation stride x_lim y_lim lcls' lreg lcent' sqrtFn)

/-- `zip` of four lists, as used by `zip(strides, cls, reg, centerness)`
(fcos.py line 207). -/
def zip4 {α β γ δ : Type} : List α → List β → List γ → List δ → List (α × β × γ × δ)
  | a :: as, b :: bs, c :: cs, d :: ds => (a, b, c, d) :: zip4 as bs cs ds
  | _, _, _, _ => []

/-- All candidate boxes of `postprocess`, combined across FPN levels in level
order (`boxes = torch.cat(boxes, dim=-2)`, fcos.py line 244). -/
def allCandidates (from_logits : Bool) (sigmoid sqrtFn : ℚ → ℚ) (τ x_lim y_lim : ℚ)
    (strides : List Nat) (cls reg centerness : List Heatmap) : List Cand :=
  (zip4 strides cls reg centerness).flatMap fun szrc =>
    levelCandidates from_logits sigmoid sqrtFn τ x_lim y_lim
      szrc.1 szrc.2.1 szrc.2.2.1 szrc.2.2.2

/-- `torchvision.ops.box_area`: `(x2 - x1) * (y2 - y1)`. -/
def boxArea (x1 y1 x2 y2 : ℚ) : ℚ := (x2 - x1) * (y2 - y1)

/-- Intersection-over-union of two candidate boxes, as computed by
`torchvision.ops.box_iou`: intersection with clamped (nonnegative) side
lengths, union by inclusion-exclusion.  (`ℚ` division by zero yields `0`
where float IoU of two empty boxes would be NaN; the claims under study never
compare such values.) -/
def iou (a b : Cand) : ℚ :=
  let interW := max 0 (min a.x2 b.x2 - max a.x1 b.x1)
  let interH := max 0 (min a.y2 b.y2 - max a.y1 b.y1)
  let inter := interW * interH
  let union := boxArea a.x1 a.y1 a.x2 a.y2 + boxArea b.x1 b.y1 b.x2 b.y2 - inter
  inter / union

/-- Insert an index into a list of indices held in descending order of
`sc`-score, keeping earlier indices first among ties. -/
def insertDesc (sc : Nat → ℚ) (i : Nat) : List Nat → List Nat
  | [] => [i]
  | j :: rest => if sc j < sc i then i :: j :: rest else j :: insertDesc sc i rest

/-- Stable sort of a list of indices into descending order of `sc`-score:
the model of torchvision's `scores.sort(descending=True)` inside `nms`
(tie order among equal scores is unspecified by torchvision; this model keeps
the earlier index first). -/
def sortDesc (sc : Nat → ℚ) : List Nat → List Nat
  | [] => []
  | i :: rest => insertDesc sc i (sortDesc sc rest)

/-- The greedy suppression loop of `torchvision.ops.batched_nms`: walk the
candidates in descending score order; a candidate is kept unless some
already-kept candidate has the same `idxs` value (same NMS category) and
IoU with it strictly above the threshold. -/
def nmsAux (cands : List Cand) (idxs : List Nat) (t : ℚ) :
    List Nat → List Nat → List Nat
  | _, [] => []
  | kept, j :: rest =>
    if kept.any fun i =>
        idxs.getD i 0 == idxs.getD j 0 &&
          decide (t < iou (cands.getD i cand0) (cands.getD j cand0)) then
      nmsAux cands idxs t kept rest
    else
      j :: nmsAux cands idxs t (j :: kept) rest

/-- `torchvision.ops.batched_nms(boxes, scores, idxs, iou_threshold)`:
returns the indices of the kept boxes, sorted in decreasing order of scores;
boxes with different `idxs` values never suppress one another.  (torchvision
implements this by offsetting each category into a disjoint coordinate range
and running plain `nms`; for the nonnegative thresholds `postprocess` passes,
that is exactly the greedy loop below with an explicit category check.) -/
def batched_nms (cands : List Cand) (scores : List ℚ) (idxs : List Nat) (t : ℚ) :
    List Nat :=
  let order := sortDesc (fun i => scores.getD i 0) (List.range cands.length)
  nmsAux cands idxs t [] order

/-- The NMS step of `postprocess` (fcos.py lines 250-262): one batched NMS
over all levels' boxes, ranked by the centerness-scaled score, with the
synthetic category id `batch_idx * num_classes + cls` (line 259). -/
def postprocessKept (cands : List Cand) (num_classes : Nat) (t : ℚ) : List Nat :=
  batched_nms cands (cands.map Cand.scaled)
    (cands.map fun cand => cand.batch * num_classes + cand.cls) t

/-- The final 6-column row of a box (fcos.py lines 264-268):
`(x1, y1, x2, y2, score, class)` with the raw or the centerness-scaled score
as selected by `use_raw_score`. -/
def Cand.row (use_raw_score : Bool) (cand : Cand) : List ℚ :=
  [cand.x1, cand.y1, cand.x2, cand.y2,
    if use_raw_score then cand.raw else cand.scaled, (cand.cls : ℚ)]

/-- Modelled from the spec: `combustion.vision.batch_box_target` (its defining
file is absent from the sources; only this import site uses it).  Per the
spec's "re-packing into a padded per-image box tensor", it stacks per-image
box lists into a `(B, N, 6)` batch, padding every image that has fewer than
`N` boxes with rows of `pad_value`, where `N` is the largest per-image box
count. -/
def batch_box_target (boxes : List (List (List ℚ))) (pad_value : ℚ) :
    List (List (List ℚ)) :=
  let n := (boxes.map List.length).foldr max 0
  boxes.map fun img => img ++ List.replicate (n - img.length) (List.replicate 6 pad_value)

/-- `FCOSDecoder.postprocess` (fcos.py lines 140-273), embedded step by step:

* `threshold = abs(float(threshold))`, `nms_threshold = abs(float(nms_threshold))
  if nms_threshold is not None else None` (lines 192-193);
* the three `assert len(strides) == len(...)` checks (lines 194-196) raise
  `AssertionError` on length mismatch;
* `cls[0].shape` (lines 198, 203-204) raises `IndexError` when `cls` is empty;
  `y_lim, x_lim = [x * strides[0] for x in cls[0].shape[-2:]]`;
* the level loop produces `allCandidates` (lines 207-240);
* when no level produced a candidate, line 247 evaluates
  `coords.new_empty(batch_size, 0, 6)`, but the local `coords` was only ever
  assigned inside the loop body (line 234), which never ran its lower half:
  Python raises `UnboundLocalError` on `coords`;
* otherwise boxes are optionally filtered by one batched NMS over all levels
  (lines 251-262, `postprocessKept`), the score column is selected
  (lines 265-268), and the boxes are packed per image (lines 271-272).

`sigmoid` and `sqrtFn` stand for `torch.sigmoid` and `torch.sqrt`. -/
def postprocess (cls reg centerness : List Heatmap) (strides : List Nat)
    (threshold : ℚ) (pad_value : ℚ) (from_logits : Bool) (nms_threshold : Option ℚ)
    (use_raw_score : Bool) (sigmoid sqrtFn : ℚ → ℚ) :
    Except PyErr (List (List (List ℚ))) :=
  let τ := |threshold|
  let nmsT := nms_threshold.map abs
  if strides.length ≠ cls.length then .error .assertionError
  else if strides.length ≠ reg.length then .error .assertionError
  else if strides.length ≠ centerness.length then .error .assertionError
  else
    match cls with
    | [] => .error PyErr.indexError
    | cls0 :: clsRest =>
      let y_lim : ℚ := ((cls0.h * strides.getD 0 0 : Nat) : ℚ)
      let x_lim : ℚ := ((cls0.w * strides.getD 0 0 : Nat) : ℚ)
      let batch_size := cls0.b
      let num_classes := cls0.c
      let cands := allCandidates from_logits sigmoid sqrtFn τ x_lim y_lim
        strides (cls0 :: clsRest) reg centerness
      if cands.isEmpty then
        .error (PyErr.unboundLocalError "coords")
      else
        let kept : List Cand :=
          match nmsT with
          | some t => (postprocessKept cands num_classes t).map fun i => cands.getD i cand0
          | none => cands
        let rows : Nat → List (List ℚ) := fun b =>
          ((kept.filter fun cand => cand.batch == b).map (Cand.row use_raw_score))
        .ok (batch_box_target ((List.range batch_size).map rows) pad_value)

/-- `BaseFCOSDecoder.reduce_heatmaps` (fcos.py lines 66-74), embedded with
Python name resolution made explicit.  The body reads

    result = heatmap[0]
    for i in range(len(heatmap) - 1):
        current_level = F.interpolate(heatmap[i + 1], result.shape[-2:], mode=mode)
        result = combine(current_level, result)
    return top

but `fcos.py` never imports `torch.nn.functional as F`, and neither `combine`
nor `top` is ever defined (the parameters are named `reduction` and `mode`,
the accumulator `result`).  Hence: an empty tuple raises `IndexError` at
`heatmap[0]`; with at least two levels the first loop iteration raises
`NameError` on `F`; with exactly one level the loop body never runs and
`return top` raises `NameError` on `top`. -/
def reduce_heatmaps (heatmap : List Heatmap) : Except PyErr Heatmap := do
  let _result ← match heatmap with
    | [] => throw PyErr.indexError
    | h :: _ => pure h
  if 2 ≤ heatmap.length then
    throw (PyErr.nameError "F")
  else
    throw (PyErr.nameError "top")

/- ----------------------------------------------------------------------
## `combustion/nn/modules/fcos.py` — `BaseFCOSDecoder.forward`
---------------------------------------------------------------------- -/

/-- Modelled from the spec: `SharedDecoder2d` from `fpn_shared_head.py`, a file
absent from the sources (only its import site in fcos.py remains).  Per the
spec's "multi-level classification/regression/centerness prediction" and the
constructor calls in fcos.py lines 32-52, it is a convolutional decoder head
shared across FPN levels, parameterized by an output channel count and a
final activation: at each level it produces a map with `out_channels`
channels, applying `final_activation` elementwise to the raw output of the
shared convolutional trunk.  The trunk (a framework convolution stack) is
carried as an opaque function parameter. -/
structure SharedDecoder2d where
  out_channels : Nat
  trunk : Heatmap → Heatmap
  final_activation : ℚ → ℚ

/-- Apply a shared decoder head at one FPN level. -/
def SharedDecoder2d.applyLevel (d : SharedDecoder2d) (f : Heatmap) : Heatmap :=
  { b := f.b
    c := d.out_channels
    h := f.h
    w := f.w
    val := fun b c y x => d.final_activation ((d.trunk f).val b c y x) }

/-- Apply a shared decoder head across all FPN levels. -/
def SharedDecoder2d.apply (d : SharedDecoder2d) (fpn : List Heatmap) : List Heatmap :=
  fpn.map d.applyLevel

/-- `layer[..., lo:hi, :, :]`: channel slice of a heatmap. -/
def sliceChannels (lo hi : Nat) (hm : Heatmap) : Heatmap :=
  { b := hm.b
    c := hi - lo
    h := hm.h
    w := hm.w
    val := fun b c y x => hm.val b (c + lo) y x }

/-- `BaseFCOSDecoder` (fcos.py lines 18-60): `cls_head` is a `SharedDecoder2d`
with `num_classes` output channels and `final_activation=nn.Identity()`
(lines 32-41); `reg_head` has `num_regressions + 1` output channels and
`final_activation=nn.Identity()` (lines 43-52).  The convolutional trunks are
framework-supplied and carried as function parameters. -/
structure BaseFCOSDecoder where
  num_classes : Nat
  num_regressions : Nat
  cls_trunk : Heatmap → Heatmap
  reg_trunk : Heatmap → Heatmap
  reg_activation : ℚ → ℚ

/-- The `cls_head` built in `BaseFCOSDecoder.__init__` (lines 32-41). -/
def BaseFCOSDecoder.cls_head (d : BaseFCOSDecoder) : SharedDecoder2d :=
  { out_channels := d.num_classes, trunk := d.cls_trunk, final_activation := id }

/-- The `reg_head` built in `BaseFCOSDecoder.__init__` (lines 43-52). -/
def BaseFCOSDecoder.reg_head (d : BaseFCOSDecoder) : SharedDecoder2d :=
  { out_channels := d.num_regressions + 1, trunk := d.reg_trunk, final_activation := id }

/-- `BaseFCOSDecoder.forward` (fcos.py lines 55-60):

    cls = self.cls_head(fpn)
    _ = self.reg_head(fpn)
    centerness = [layer[..., 0:1, :, :] for layer in _]
    reg = [self.reg_activation(layer[..., 1:, :, :]) for layer in _]
    return cls, reg, centerness
-/
def BaseFCOSDecoder.forward (d : BaseFCOSDecoder) (fpn : List Heatmap) :
    List Heatmap × List Heatmap × List Heatmap :=
  let cls := d.cls_head.apply fpn
  let u := d.reg_head.apply fpn
  let centerness := u.map (sliceChannels 0 1)
  let reg := u.map fun layer =>
    mapHeatmap d.reg_activation (sliceChannels 1 (d.num_regressions + 1) layer)
  (cls, reg, centerness)

/-- `nn.ReLU` as a scalar function. -/
def relu (q : ℚ) : ℚ := max 0 q

/-- `FCOSDecoder.__init__` (fcos.py lines 117-138): calls the base constructor
with `num_regressions = 4` and `reg_activation = nn.ReLU(inplace=True)`. -/
def FCOSDecoder.make (num_classes : Nat) (cls_trunk reg_trunk : Heatmap → Heatmap) :
    BaseFCOSDecoder :=
  { num_classes := num_classes
    num_regressions := 4
    cls_trunk := cls_trunk
    reg_trunk := reg_trunk
    reg_activation := relu }

/- ----------------------------------------------------------------------
## `combustion/nn/modules/global_attention_upsample.py`
---------------------------------------------------------------------- -/

/-- Broadcast index: a dimension of extent 1 is read at index 0
(PyTorch broadcasting). -/
def bidx (i d : Nat) : Nat := if d = 1 then 0 else i

/-- Broadcasting elementwise product of two heatmaps
(`low_level * weights`). -/
def tmul (a b : Heatmap) : Heatmap :=
  { b := max a.b b.b
    c := max a.c b.c
    h := max a.h b.h
    w := max a.w b.w
    val := fun n c h w =>
      a.val (bidx n a.b) (bidx c a.c) (bidx h a.h) (bidx w a.w) *
        b.val (bidx n b.b) (bidx c b.c) (bidx h b.h) (bidx w b.w) }

/-- Broadcasting elementwise sum of two heatmaps (`high_level + ...`). -/
def tadd (a b : Heatmap) : Heatmap :=
  { b := max a.b b.b
    c := max a.c b.c
    h := max a.h b.h
    w := max a.w b.w
    val := fun n c h w =>
      a.val (bidx n a.b) (bidx c a.c) (bidx h a.h) (bidx w a.w) +
        b.val (bidx n b.b) (bidx c b.c) (bidx h b.h) (bidx w b.w) }

/-- `nn.AdaptiveAvgPool2d(1)`: global average pool to spatial size `1 × 1`. -/
def adaptiveAvgPool1 (t : Heatmap) : Heatmap :=
  { b := t.b
    c := t.c
    h := 1
    w := 1
    val := fun n c _ _ =>
      (∑ y ∈ Finset.range t.h, ∑ x ∈ Finset.range t.w, t.val n c y x) / ((t.h * t.w : Nat) : ℚ) }

/-- `_AttentionUpsample` (global_attention_upsample.py lines 45-103).  The
framework layers built in `__init__` are carried as opaque function
parameters:

* `lowConv` — `DynamicSamePad(Conv(low_filters, output_filters, kernel_size, bias=False))`,
  a spatial-size-preserving convolution mapping to `output_filters` channels;
* `batchNorm` — `BatchNorm(output_filters, ...)`;
* `lowAct` / `highAct` — `low_activation` / `high_activation`;
* `weightConv` — `Conv(high_filters, output_filters, 1)`;
* `highConv` — the pointwise `Conv(high_filters, output_filters, 1)` when
  `high_filters != output_filters`, else `nn.Identity()` (lines 77-81);
* `interp` — `F.interpolate(·, size, mode="bilinear", align_corners=False)`;
* `poolFlag` — the `pool` constructor argument. -/
structure AttentionUpsample where
  poolFlag : Bool
  lowConv : Heatmap → Heatmap
  batchNorm : Heatmap → Heatmap
  lowAct : Heatmap → Heatmap
  weightConv : Heatmap → Heatmap
  highAct : Heatmap → Heatmap
  highConv : Heatmap → Heatmap
  interp : Heatmap → Nat → Nat → Heatmap

/-- `_AttentionUpsample.forward` (global_attention_upsample.py lines 83-103):

    low_level = self.low_level_path(low_level)
    weights = self.high_level_path(high_level)
    high_level = self.high_level_conv(high_level)
    if high_level.shape[2:] != low_level.shape[2:]:
        high_level = F.interpolate(high_level, low_level.shape[2:], ...)
        if not self._pool:
            weights = F.interpolate(weights, low_level.shape[2:], ...)
    return high_level + low_level * weights

where `low_level_path = lowAct ∘ batchNorm ∘ lowConv` (lines 64-68) and
`high_level_path = highAct ∘ weightConv ∘ (AdaptiveAvgPool(1) if pool else Identity)`
(lines 71-75). -/
def AttentionUpsample.forward (m : AttentionUpsample) (low_level high_level : Heatmap) :
    Heatmap :=
  let low' := m.lowAct (m.batchNorm (m.lowConv low_level))
  let weights := m.highAct (m.weightConv
    (if m.poolFlag then adaptiveAvgPool1 high_level else high_level))
  let high' := m.highConv high_level
  if (high'.h, high'.w) ≠ (low'.h, low'.w) then
    let high'' := m.interp high' low'.h low'.w
    let weights' := if m.poolFlag then weights else m.interp weights low'.h low'.w
    tadd high'' (tmul low' weights')
  else
    tadd high' (tmul low' weights)

/-- A framework layer that preserves the full `(N, C, H, W)` shape
(batch norm, activations). -/
def PreservesShape (f : Heatmap → Heatmap) : Prop :=
  ∀ t, (f t).b = t.b ∧ (f t).c = t.c ∧ (f t).h = t.h ∧ (f t).w = t.w

/-- A framework layer that maps the channel dimension to `co` and preserves
batch and spatial dimensions (the convolutions of this block: `DynamicSamePad`
guarantees the spatial size of `lowConv`, pointwise convolutions preserve it
trivially). -/
def MapsChannelsTo (f : Heatmap → Heatmap) (co : Nat) : Prop :=
  ∀ t, (f t).b = t.b ∧ (f t).c = co ∧ (f t).h = t.h ∧ (f t).w = t.w

/-- `F.interpolate(·, (hh, ww), ...)` resizes the spatial dimensions to the
requested size and preserves batch and channel dimensions. -/
def InterpContract (f : Heatmap → Nat → Nat → Heatmap) : Prop :=
  ∀ t hh ww, (f t hh ww).b = t.b ∧ (f t hh ww).c = t.c ∧
    (f t hh ww).h = hh ∧ (f t hh ww).w = ww

/- ----------------------------------------------------------------------
## `combustion/models/efficientdet_fcos.py` — `create_boxes`
---------------------------------------------------------------------- -/

/-- `FCOSMixin.create_boxes` (efficientdet_fcos.py lines 18-33) and the
textually identical `EfficientDetFCOS.create_boxes` (lines 186-204), embedded
with Python name resolution made explicit.  The loop body reads

    for i, (c, r, cent) in enumerate(zip(cls, reg, centerness)):
        cls = cls * cent.expand_as(cls)
        ...

On the first iteration `cls` is still the argument tuple of heatmaps, so
`cent.expand_as(cls)` raises `TypeError` (`expand_as` takes a `Tensor`).
(Were that line to survive, `center_y = center` and `x = x_s * stride` would
raise `NameError` on the undefined `center` and `x_s`.)  When `zip(cls, reg,
centerness)` is empty the loop body never runs and the function falls off the
end, returning `None` — not the `Tensor` its signature declares. -/
def create_boxes (cls reg centerness : List Heatmap) (strides : List Nat)
    (threshold : ℚ) (pad_value : ℚ) : Except PyErr (Option TensorN) :=
  if cls.isEmpty || reg.isEmpty || centerness.isEmpty then
    pure none
  else
    throw (PyErr.typeError "expand_as(): argument must be Tensor, not tuple")

/- ----------------------------------------------------------------------
## Test fixtures (concrete inputs used by witnesses and counterexamples)
---------------------------------------------------------------------- -/

/-- A `1 × 1 × 1 × 1` heatmap holding a single constant value. -/
def constHeatmap (q : ℚ) : Heatmap :=
  { b := 1, c := 1, h := 1, w := 1, val := fun _ _ _ _ => q }

/-- A well-shaped `1 × 4 × 1 × 1` regression heatmap with all offsets zero. -/
def regHeatmap : Heatmap :=
  { b := 1, c := 4, h := 1, w := 1, val := fun _ _ _ _ => 0 }

/- ----------------------------------------------------------------------
## Helper lemmas
---------------------------------------------------------------------- -/

theorem mem_positiveLocations {hm : Heatmap} {τ : ℚ} {b c y x : Nat} :
    (b, c, y, x) ∈ positiveLocations hm τ ↔
      b < hm.b ∧ c < hm.c ∧ y < hm.h ∧ x < hm.w ∧ τ ≤ hm.val b c y x := by
  unfold positiveLocations
  simp only [List.mem_flatMap, List.mem_filterMap, List.mem_range]
  constructor
  · rintro ⟨b', hb', c', hc', y', hy', x', hx', hif⟩
    by_cases hτ : τ ≤ hm.val b' c' y' x'
    · rw [if_pos hτ] at hif
      obtain ⟨h1, h2, h3, h4⟩ : b' = b ∧ c' = c ∧ y' = y ∧ x' = x := by
        simpa using hif
      subst h1; subst h2; subst h3; subst h4
      exact ⟨hb', hc', hy', hx', hτ⟩
    · rw [if_neg hτ] at hif
      exact absurd hif (by simp)
  · rintro ⟨hb, hc, hy, hx, hτ⟩
    exact ⟨b, hb, c, hc, y, hy, x, hx, by rw [if_pos hτ]⟩

theorem mem_zip4 {α β γ δ : Type} :
    ∀ (ss : List α) (ts : List β) (us : List γ) (vs : List δ) (s : α) (t : β) (u : γ)
      (v : δ), (s, t, u, v) ∈ zip4 ss ts us vs →
      ∃ i : Nat, ss[i]? = some s ∧ ts[i]? = some t ∧ us[i]? = some u ∧ vs[i]? = some v
  | s0 :: ss, t0 :: ts, u0 :: us, v0 :: vs, s, t, u, v, h => by
    rw [zip4] at h
    rcases List.mem_cons.mp h with heq | hmem
    · obtain ⟨h1, h2, h3, h4⟩ : s = s0 ∧ t = t0 ∧ u = u0 ∧ v = v0 := by
        simpa [Prod.ext_iff] using heq
      subst h1; subst h2; subst h3; subst h4
      exact ⟨0, by simp, by simp, by simp, by simp⟩
    · obtain ⟨i, h1, h2, h3, h4⟩ := mem_zip4 ss ts us vs s t u v hmem
      exact ⟨i + 1, by simpa using h1, by simpa using h2, by simpa using h3,
        by simpa using h4⟩
  | [], _, _, _, _, _, _, _, h => by simp [zip4] at h
  | _ :: _, [], _, _, _, _, _, _, h => by simp [zip4] at h
  | _ :: _, _ :: _, [], _, _, _, _, _, h => by simp [zip4] at h
  | _ :: _, _ :: _, _ :: _, [], _, _, _, _, h => by simp [zip4] at h

theorem getD_map_of_lt {α β : Type} (f : α → β) (l : List α) (i : Nat)
    (hi : i < l.length) (d : β) (d0 : α) :
    (l.map f).getD i d = f (l.getD i d0) := by
  rw [List.getD_eq_getElem?_getD, List.getD_eq_getElem?_getD, List.getElem?_map,
    List.getElem?_eq_getElem hi]
  simp

theorem insertDesc_perm (sc : Nat → ℚ) (i : Nat) :
    ∀ l : List Nat, (insertDesc sc i l).Perm (i :: l)
  | [] => List.Perm.refl _
  | j :: rest => by
    rw [insertDesc]
    split
    · exact List.Perm.refl _
    · exact ((insertDesc_perm sc i rest).cons j).trans (List.Perm.swap i j rest)

theorem mem_insertDesc (sc : Nat → ℚ) (a i : Nat) (l : List Nat) :
    a ∈ insertDesc sc i l ↔ a = i ∨ a ∈ l := by
  rw [(insertDesc_perm sc i l).mem_iff, List.mem_cons]

theorem insertDesc_sorted (sc : Nat → ℚ) (i : Nat) :
    ∀ l : List Nat, List.Pairwise (fun a b => sc b ≤ sc a) l →
      List.Pairwise (fun a b => sc b ≤ sc a) (insertDesc sc i l)
  | [], _ => by simp [insertDesc]
  | j :: rest, hp => by
    rcases List.pairwise_cons.mp hp with ⟨hj, hrest⟩
    rw [insertDesc]
    split
    · next hlt =>
      refine List.pairwise_cons.mpr ⟨?_, hp⟩
      intro a ha
      rcases List.mem_cons.mp ha with rfl | ha
      · exact le_of_lt hlt
      · exact (hj a ha).trans (le_of_lt hlt)
    · next hnlt =>
      refine List.pairwise_cons.mpr ⟨?_, insertDesc_sorted sc i rest hrest⟩
      intro a ha
      rcases (mem_insertDesc sc a i rest).mp ha with rfl | ha
      · exact not_lt.mp hnlt
      · exact hj a ha

theorem sortDesc_perm (sc : Nat → ℚ) :
    ∀ l : List Nat, (sortDesc sc l).Perm l
  | [] => List.Perm.refl _
  | i :: rest => by
    rw [sortDesc]
    exact (insertDesc_perm sc i (sortDesc sc rest)).trans ((sortDesc_perm sc rest).cons i)

theorem sortDesc_sorted (sc : Nat → ℚ) :
    ∀ l : List Nat, List.Pairwise (fun a b => sc b ≤ sc a) (sortDesc sc l)
  | [] => List.Pairwise.nil
  | i :: rest => insertDesc_sorted sc i (sortDesc sc rest) (sortDesc_sorted sc rest)

theorem nmsAux_subset (cands : List Cand) (idxs : List Nat) (t : ℚ) :
    ∀ (order kept : List Nat) (j : Nat), j ∈ nmsAux cands idxs t kept order → j ∈ order
  | [], _, j, h => by simp [nmsAux] at h
  | j0 :: rest, kept, j, h => by
    rw [nmsAux] at h
    split at h
    · exact List.mem_cons_of_mem j0 (nmsAux_subset cands idxs t rest kept j h)
    · rcases List.mem_cons.mp h with rfl | h'
      · exact List.mem_cons_self _ rest
      · exact List.mem_cons_of_mem j0 (nmsAux_subset cands idxs t rest (j0 :: kept) j h')

/-- Key invariant of the greedy NMS loop: any candidate of `order` missing
from the output was suppressed by some candidate that is kept (or was already
in `kept`), belongs to the same NMS category, overlaps it with IoU above the
threshold, and scores at least as high. -/
theorem nmsAux_cover (cands : List Cand) (idxs : List Nat) (t : ℚ) (sc : Nat → ℚ) :
    ∀ (order kept : List Nat),
      List.Pairwise (fun a b => sc b ≤ sc a) order →
      (∀ i ∈ kept, ∀ j ∈ order, sc j ≤ sc i) →
      ∀ j ∈ order, j ∉ nmsAux cands idxs t kept order →
      ∃ i, i ∈ kept ++ nmsAux cands idxs t kept order ∧
        idxs.getD i 0 = idxs.getD j 0 ∧
        t < iou (cands.getD i cand0) (cands.getD j cand0) ∧
        sc j ≤ sc i
  | [], _, _, _, j, hj, _ => absurd hj (List.not_mem_nil j)
  | j0 :: rest, kept, hpw, hk, j, hj, hnot => by
    rcases List.pairwise_cons.mp hpw with ⟨hj0, hpw'⟩
    by_cases hsup : (kept.any fun i =>
        idxs.getD i 0 == idxs.getD j0 0 &&
          decide (t < iou (cands.getD i cand0) (cands.getD j0 cand0))) = true
    · rw [nmsAux, if_pos hsup] at hnot ⊢
      rcases List.mem_cons.mp hj with rfl | hjrest
      · obtain ⟨i, hik, hcond⟩ := List.any_eq_true.mp hsup
        rw [Bool.and_eq_true, beq_iff_eq, decide_eq_true_eq] at hcond
        exact ⟨i, List.mem_append_left _ hik, hcond.1, hcond.2,
          hk i hik j (List.mem_cons_self j rest)⟩
      · exact nmsAux_cover cands idxs t sc rest kept hpw'
          (fun i hik j' hj' => hk i hik j' (List.mem_cons_of_mem j0 hj')) j hjrest hnot
    · rw [nmsAux, if_neg hsup] at hnot ⊢
      rcases List.mem_cons.mp hj with rfl | hjrest
      · exact absurd (List.mem_cons_self j _) hnot
      · have hk' : ∀ i ∈ j0 :: kept, ∀ j' ∈ rest, sc j' ≤ sc i := by
          intro i hik j' hj'
          rcases List.mem_cons.mp hik with rfl | hik'
          · exact hj0 j' hj'
          · exact hk i hik' j' (List.mem_cons_of_mem j0 hj')
        have hnot' : j ∉ nmsAux cands idxs t (j0 :: kept) rest := fun hjin =>
          hnot (List.mem_cons_of_mem j0 hjin)
        obtain ⟨i, hi, h1, h2, h3⟩ :=
          nmsAux_cover cands idxs t sc rest (j0 :: kept) hpw' hk' j hjrest hnot'
        refine ⟨i, ?_, h1, h2, h3⟩
        rcases List.mem_append.mp hi with hik | hires
        · rcases List.mem_cons.mp hik with rfl | hik'
          · exact List.mem_append_right _ (List.mem_cons_self i _)
          · exact List.mem_append_left _ hik'
        · exact List.mem_append_right _ (List.mem_cons_of_mem j0 hires)

/-- Every candidate produced by `allCandidates` takes its class index from a
positive location of the corresponding level, so it is bounded by the level's
channel count. -/
theorem allCandidates_cls_lt (from_logits : Bool) (sigmoid sqrtFn : ℚ → ℚ)
    (τ x_lim y_lim : ℚ) (strides : List Nat) (cls reg centerness : List Heatmap)
    (K : Nat) (hK : ∀ lc ∈ cls, lc.c = K) :
    ∀ cand ∈ allCandidates from_logits sigmoid sqrtFn τ x_lim y_lim strides cls reg
      centerness, cand.cls < K := by
  intro cand hcand
  unfold allCandidates at hcand
  rw [List.mem_flatMap] at hcand
  obtain ⟨⟨s, lc, lr, lcn⟩, hz, hlevel⟩ := hcand
  obtain ⟨i, hs, hc, hr, hn⟩ := mem_zip4 _ _ _ _ _ _ _ _ hz
  unfold levelCandidates at hlevel
  rw [List.mem_map] at hlevel
  obtain ⟨⟨b, c, y, x⟩, hloc, hdec⟩ := hlevel
  rw [mem_positiveLocations] at hloc
  have hlcK : lc.c = K := hK lc (List.getElem?_mem hc)
  have hcls_eq : cand.cls = c := by rw [← hdec]; rfl
  have hcc : c < (if from_logits then mapHeatmap sigmoid lc else lc).c := hloc.2.1
  have hch : (if from_logits then mapHeatmap sigmoid lc else lc).c = lc.c := by
    cases from_logits <;> rfl
  rw [hcls_eq, ← hlcK, ← hch]
  exact hcc

/- ----------------------------------------------------------------------
## Claim theorems
---------------------------------------------------------------------- -/

/-- C10: for equal-shaped `src` and `dest` and any scalar `dest_alpha`,
`alpha_blend(src, dest, src_alpha=1.0, dest_alpha)` returns blended channels
equal to `src` and an output alpha that is identically `1`: a fully opaque
source is an identity for alpha blending regardless of the destination. -/
theorem alpha_blend_opaque_src (src dest : TensorN) (dest_alpha : ℚ)
    (hshape : src.shape = dest.shape) :
    alpha_blend src dest (AlphaArg.scalar 1) (AlphaArg.scalar dest_alpha) =
      Except.ok ({ shape := src.shape, val := src.val },
                 { shape := src.shape, val := fun _ => 1 }) := by
  unfold alpha_blend
  rw [if_neg (by simp [hshape])]
  refine congrArg Except.ok (Prod.ext ?_ ?_) <;> simp only
  · congr 1
    funext idx
    simp
  · congr 1
    funext idx
    simp

/-- C10 witness: concrete equal-shaped two-element tensors. -/
theorem alpha_blend_opaque_src_witness :
    (TensorN.mk [2] (fun idx => idx.getD 0 0)).shape = (TensorN.mk [2] (fun _ => 7)).shape ∧
    alpha_blend (TensorN.mk [2] (fun idx => idx.getD 0 0)) (TensorN.mk [2] (fun _ => 7))
        (AlphaArg.scalar 1) (AlphaArg.scalar (1 / 3)) =
      Except.ok ({ shape := [2], val := fun idx => idx.getD 0 0 },
                 { shape := [2], val := fun _ => 1 }) :=
  ⟨rfl, alpha_blend_opaque_src _ _ (1 / 3) rfl⟩

/-- C9 counterexample: the input of shape `(0, 1)` has channel dimension of
size 1, yet `apply_colormap` does not return a tensor of shape `(0, 4)`: the
batch loop builds an empty list and `torch.stack([])` raises `RuntimeError`. -/
theorem apply_colormap_empty_batch_counterexample :
    apply_colormap (fun _ _ => 0) { shape := [0, 1], val := fun _ => 0 } =
      Except.error (PyErr.runtimeError "stack expects a non-empty TensorList") := rfl

/-- C9 (amended): `apply_colormap` raises `ValueError` iff the input has at
least two dimensions and dimension 1 has size ≠ 1 (inputs with fewer than two
dimensions raise `IndexError` instead); and for every input with at least two
dimensions, channel size 1, and a nonzero dimension 0, it returns a tensor
whose shape is the input shape with the channel dimension replaced by 4. -/
theorem apply_colormap_spec (cm : ℚ → Fin 4 → ℚ) (inputs : TensorN) :
    ((∃ msg, apply_colormap cm inputs = Except.error (PyErr.valueError msg)) ↔
      2 ≤ inputs.shape.length ∧ inputs.shape.getD 1 0 ≠ 1) ∧
    (∀ b c rest, inputs.shape = b :: c :: rest → c = 1 → 0 < b →
      ∃ out, apply_colormap cm inputs = Except.ok out ∧ out.shape = b :: 4 :: rest) := by
  constructor
  · rcases hs : inputs.shape with _ | ⟨b, tl⟩
    · simp [apply_colormap, hs]
    · rcases tl with _ | ⟨c, rest⟩
      · simp [apply_colormap, hs]
      · by_cases hc : c = 1
        · subst hc
          by_cases hb : b = 0
          · subst hb; simp [apply_colormap, hs]
          · simp [apply_colormap, hs, hb]
        · simp [apply_colormap, hs, hc]
  · intro b c rest hbc hc hb
    subst hc
    have hb' : ¬b = 0 := Nat.pos_iff_ne_zero.mp hb
    refine ⟨colormapOutput cm inputs b rest, ?_, rfl⟩
    simp only [apply_colormap, hbc]
    rw [if_neg (by simp), if_neg hb']

/-- C9 witness for the amended claim: a concrete `(2, 1, 3)` input maps to a
`(2, 4, 3)` output, and a concrete `(2, 2)` input raises `ValueError`. -/
theorem apply_colormap_spec_witness :
    (∃ out, apply_colormap (fun _ _ => 0) (TensorN.mk [2, 1, 3] fun _ => 0) =
        Except.ok out ∧ out.shape = [2, 4, 3]) ∧
    (∃ msg, apply_colormap (fun _ _ => 0) (TensorN.mk [2, 2] fun _ => 0) =
        Except.error (PyErr.valueError msg)) :=
  ⟨(apply_colormap_spec (fun _ _ => 0) (TensorN.mk [2, 1, 3] fun _ => 0)).2
      2 1 [3] rfl rfl (by decide),
    (apply_colormap_spec (fun _ _ => 0) (TensorN.mk [2, 2] fun _ => 0)).1.mpr
      (by constructor <;> decide)⟩

/-- C5 (code evaluated at the failing inputs): `reduce_heatmaps` never fuses
anything — on a one-level tuple the trailing `return top` raises `NameError`
(`top` is undefined; the loop accumulator is called `result`), and with two or
more levels the loop body raises `NameError` on `F`, which `fcos.py` never
imports. -/
theorem reduce_heatmaps_raises :
    reduce_heatmaps [constHeatmap 1] = Except.error (PyErr.nameError "top") ∧
    reduce_heatmaps [constHeatmap 1, constHeatmap 0] =
      Except.error (PyErr.nameError "F") :=
  ⟨rfl, rfl⟩

/-- C7 (code evaluated at the failing input): on a well-shaped one-level input
`create_boxes` raises `TypeError` — the loop body evaluates
`cent.expand_as(cls)` while `cls` is still the tuple of heatmaps. -/
theorem create_boxes_raises :
    create_boxes [constHeatmap 1] [regHeatmap] [constHeatmap 1] [1] (1 / 20) (-1) =
      Except.error (PyErr.typeError "expand_as(): argument must be Tensor, not tuple") := rfl

/-- C3 (code evaluated at the failing input): when no location at any FPN
level reaches the detection threshold, `postprocess` does not return a padded
box tensor — line 247 evaluates `coords.new_empty(...)` but the local
`coords` was never assigned, raising `UnboundLocalError` (and even the
intended fallback would `return boxes, []`, a tuple, not a tensor). -/
theorem postprocess_no_candidates_raises :
    postprocess [constHeatmap 0] [regHeatmap] [constHeatmap 0] [1] (1 / 20) (-1)
        false (some (1 / 2)) false id id =
      Except.error (PyErr.unboundLocalError "coords") := by
  have habs : |(1 / 20 : ℚ)| = 1 / 20 := abs_of_pos (by norm_num)
  have hpl : positiveLocations (constHeatmap 0) (1 / 20) = [] := by
    simp only [positiveLocations, constHeatmap]
    norm_num
  simp only [postprocess, habs]
  norm_num [allCandidates, zip4, levelCandidates, hpl]

/-- C1: every candidate box of `postprocess` produced from a positive location
`(b, c, y, x)` at an FPN level with stride `s` is reconstructed from the
regression offsets `(l, t, r, b)` at that location as
`(s*x + s/2 - l, s*y + s/2 - t, s*x + s/2 + r, s*y + s/2 + b)` (with `s/2`
the integer `int(stride / 2)`), and then clamped so that every coordinate is
`≥ 0`, `x2 ≤ W0 * strides[0]` and `y2 ≤ H0 * strides[0]`, where `(H0, W0)` is
the spatial size of the first-level classification map. -/
theorem fcos_postprocess_box_reconstruction
    (from_logits : Bool) (sigmoid sqrtFn : ℚ → ℚ) (τ : ℚ)
    (strides : List Nat) (cls reg centerness : List Heatmap)
    (cls0 : Heatmap) (h0 : cls[0]? = some cls0) :
    ∀ cand ∈ allCandidates from_logits sigmoid sqrtFn τ
      ((cls0.w * strides.getD 0 0 : Nat) : ℚ) ((cls0.h * strides.getD 0 0 : Nat) : ℚ)
      strides cls reg centerness,
    ∃ (i s : Nat) (lc lr lcn : Heatmap),
      strides[i]? = some s ∧ cls[i]? = some lc ∧ reg[i]? = some lr ∧
      centerness[i]? = some lcn ∧
      ∃ b c y x : Nat,
        (b, c, y, x) ∈ positiveLocations
          (if from_logits then mapHeatmap sigmoid lc else lc) τ ∧
        cand.x1 = max 0 ((s : ℚ) * x + ((s / 2 : Nat) : ℚ) - lr.val b 0 y x) ∧
        cand.y1 = max 0 ((s : ℚ) * y + ((s / 2 : Nat) : ℚ) - lr.val b 1 y x) ∧
        cand.x2 = min (max 0 ((s : ℚ) * x + ((s / 2 : Nat) : ℚ) + lr.val b 2 y x))
          ((cls0.w * strides.getD 0 0 : Nat) : ℚ) ∧
        cand.y2 = min (max 0 ((s : ℚ) * y + ((s / 2 : Nat) : ℚ) + lr.val b 3 y x))
          ((cls0.h * strides.getD 0 0 : Nat) : ℚ) := by
  intro cand hmem
  unfold allCandidates at hmem
  rw [List.mem_flatMap] at hmem
  obtain ⟨⟨s, lc, lr, lcn⟩, hz, hlevel⟩ := hmem
  obtain ⟨i, hs, hc, hr, hn⟩ := mem_zip4 _ _ _ _ _ _ _ _ hz
  unfold levelCandidates at hlevel
  rw [List.mem_map] at hlevel
  obtain ⟨⟨b, c, y, x⟩, hloc, hdec⟩ := hlevel
  have hx : ((x * s : Nat) : ℚ) = (s : ℚ) * x := by push_cast; ring
  have hy : ((y * s : Nat) : ℚ) = (s : ℚ) * y := by push_cast; ring
  refine ⟨i, s, lc, lr, lcn, hs, hc, hr, hn, b, c, y, x, hloc, ?_, ?_, ?_, ?_⟩
  · rw [← hdec]
    show max 0 (((x * s : Nat) : ℚ) + ((s / 2 : Nat) : ℚ) + -(lr.val b 0 y x)) = _
    rw [hx, sub_eq_add_neg]
  · rw [← hdec]
    show max 0 (((y * s : Nat) : ℚ) + ((s / 2 : Nat) : ℚ) + -(lr.val b 1 y x)) = _
    rw [hy, sub_eq_add_neg]
  · rw [← hdec]
    show min (max 0 (((x * s : Nat) : ℚ) + ((s / 2 : Nat) : ℚ) + lr.val b 2 y x)) _ = _
    rw [hx]
  · rw [← hdec]
    show min (max 0 (((y * s : Nat) : ℚ) + ((s / 2 : Nat) : ℚ) + lr.val b 3 y x)) _ = _
    rw [hy]

/-- C1 witness: the reconstruction property instantiated at a concrete
one-level input of `1 × 1 × 1 × 1` heatmaps. -/
theorem fcos_postprocess_box_reconstruction_witness :
    ([constHeatmap 1] : List Heatmap)[0]? = some (constHeatmap 1) ∧
    (∀ cand ∈ allCandidates false id id (1 / 20)
      (((constHeatmap 1).w * ([1] : List Nat).getD 0 0 : Nat) : ℚ)
      (((constHeatmap 1).h * ([1] : List Nat).getD 0 0 : Nat) : ℚ)
      [1] [constHeatmap 1] [regHeatmap] [constHeatmap 1],
    ∃ (i s : Nat) (lc lr lcn : Heatmap),
      ([1] : List Nat)[i]? = some s ∧ ([constHeatmap 1] : List Heatmap)[i]? = some lc ∧
      ([regHeatmap] : List Heatmap)[i]? = some lr ∧
      ([constHeatmap 1] : List Heatmap)[i]? = some lcn ∧
      ∃ b c y x : Nat,
        (b, c, y, x) ∈ positiveLocations
          (if false then mapHeatmap id lc else lc) (1 / 20) ∧
        cand.x1 = max 0 ((s : ℚ) * x + ((s / 2 : Nat) : ℚ) - lr.val b 0 y x) ∧
        cand.y1 = max 0 ((s : ℚ) * y + ((s / 2 : Nat) : ℚ) - lr.val b 1 y x) ∧
        cand.x2 = min (max 0 ((s : ℚ) * x + ((s / 2 : Nat) : ℚ) + lr.val b 2 y x))
          (((constHeatmap 1).w * ([1] : List Nat).getD 0 0 : Nat) : ℚ) ∧
        cand.y2 = min (max 0 ((s : ℚ) * y + ((s / 2 : Nat) : ℚ) + lr.val b 3 y x))
          (((constHeatmap 1).h * ([1] : List Nat).getD 0 0 : Nat) : ℚ)) :=
  ⟨rfl,
    fcos_postprocess_box_reconstruction false id id (1 / 20) [1]
      [constHeatmap 1] [regHeatmap] [constHeatmap 1] (constHeatmap 1) rfl⟩

/-- C2: a location `(b, c, y, x)` of an FPN level is selected as a positive
location — and hence decoded into a candidate box — if and only if its
classification score (after sigmoid when `from_logits = true`) is at least
the absolute value of the threshold argument; the level's candidate list is
exactly the decoded positive locations, so a location scoring below the
threshold contributes no box. -/
theorem fcos_postprocess_threshold_iff
    (from_logits : Bool) (sigmoid sqrtFn : ℚ → ℚ) (threshold x_lim y_lim : ℚ)
    (stride : Nat) (lcls lreg lcent : Heatmap) (b c y x : Nat)
    (hb : b < lcls.b) (hc : c < lcls.c) (hy : y < lcls.h) (hx : x < lcls.w) :
    ((b, c, y, x) ∈ positiveLocations
        (if from_logits then mapHeatmap sigmoid lcls else lcls) |threshold| ↔
      |threshold| ≤ (if from_logits then mapHeatmap sigmoid lcls else lcls).val b c y x) ∧
    levelCandidates from_logits sigmoid sqrtFn |threshold| x_lim y_lim stride lcls lreg lcent =
      (positiveLocations (if from_logits then mapHeatmap sigmoid lcls else lcls) |threshold|).map
        (decodeLocation stride x_lim y_lim
          (if from_logits then mapHeatmap sigmoid lcls else lcls) lreg
          (if from_logits then mapHeatmap sigmoid lcent else lcent) sqrtFn) := by
  constructor
  · rw [mem_positiveLocations]
    cases from_logits
    · simp [hb, hc, hy, hx]
    · simp [mapHeatmap, hb, hc, hy, hx]
  · rfl

/-- C2 witness: at a concrete `1 × 1 × 1 × 1` level with score `1` and
threshold `1/20`, the iff and the candidate-list equation hold. -/
theorem fcos_postprocess_threshold_iff_witness :
    0 < (constHeatmap 1).b ∧ 0 < (constHeatmap 1).c ∧ 0 < (constHeatmap 1).h ∧
    0 < (constHeatmap 1).w ∧
    (((0, 0, 0, 0) ∈ positiveLocations
        (if false then mapHeatmap id (constHeatmap 1) else constHeatmap 1) |(1 / 20 : ℚ)| ↔
      |(1 / 20 : ℚ)| ≤
        (if false then mapHeatmap id (constHeatmap 1) else constHeatmap 1).val 0 0 0 0) ∧
    levelCandidates false id id |(1 / 20 : ℚ)| 7 9 2 (constHeatmap 1) regHeatmap
        (constHeatmap 1) =
      (positiveLocations
          (if false then mapHeatmap id (constHeatmap 1) else constHeatmap 1) |(1 / 20 : ℚ)|).map
        (decodeLocation 2 7 9
          (if false then mapHeatmap id (constHeatmap 1) else constHeatmap 1) regHeatmap
          (if false then mapHeatmap id (constHeatmap 1) else constHeatmap 1) id)) :=
  ⟨by decide, by decide, by decide, by decide,
    fcos_postprocess_threshold_iff false id id (1 / 20) 7 9 2 (constHeatmap 1) regHeatmap
      (constHeatmap 1) 0 0 0 0 (by decide) (by decide) (by decide) (by decide)⟩

/-- C4: when `nms_threshold` is not `None`, `postprocess` runs one batched NMS
over the candidates combined from all FPN levels (`postprocessKept`), ranking
them by the centerness-scaled score and grouping them by the synthetic
category `batch * num_classes + cls`: whenever a candidate `j` is suppressed,
its suppressor `i` is a kept candidate from the *same image* and *same
predicted class*, with IoU above the threshold and a centerness-scaled score
at least as high — two boxes from different images or different classes never
suppress one another. -/
theorem fcos_postprocess_nms_grouping
    (from_logits : Bool) (sigmoid sqrtFn : ℚ → ℚ) (τ x_lim y_lim : ℚ)
    (strides : List Nat) (cls reg centerness : List Heatmap)
    (cands : List Cand) (K : Nat) (t : ℚ)
    (hcands : cands = allCandidates from_logits sigmoid sqrtFn τ x_lim y_lim
      strides cls reg centerness)
    (hK : ∀ lc ∈ cls, lc.c = K) :
    ∀ j, j < cands.length → j ∉ postprocessKept cands K t →
      ∃ i, i ∈ postprocessKept cands K t ∧
        (cands.getD i cand0).batch = (cands.getD j cand0).batch ∧
        (cands.getD i cand0).cls = (cands.getD j cand0).cls ∧
        t < iou (cands.getD i cand0) (cands.getD j cand0) ∧
        (cands.getD j cand0).scaled ≤ (cands.getD i cand0).scaled := by
  intro j hj hrem
  have hclsK : ∀ cand ∈ cands, cand.cls < K := by
    rw [hcands]
    exact allCandidates_cls_lt from_logits sigmoid sqrtFn τ x_lim y_lim strides cls reg
      centerness K hK
  have hKpos : 0 < K := by
    have := hclsK (cands.getD j cand0) ?_
    · omega
    · rw [List.getD_eq_getElem?_getD, List.getElem?_eq_getElem hj]
      exact List.getElem_mem hj
  set sc : Nat → ℚ := fun i => (cands.map Cand.scaled).getD i 0 with hsc
  set idxs : List Nat := cands.map fun cand => cand.batch * K + cand.cls with hidxs
  have hkeep : postprocessKept cands K t =
      nmsAux cands idxs t [] (sortDesc sc (List.range cands.length)) := rfl
  rw [hkeep] at hrem
  have hjord : j ∈ sortDesc sc (List.range cands.length) :=
    (sortDesc_perm sc _).mem_iff.mpr (List.mem_range.mpr hj)
  obtain ⟨i, hi, hidx, hiou, hsc'⟩ :=
    nmsAux_cover cands idxs t sc (sortDesc sc (List.range cands.length)) []
      (sortDesc_sorted sc _) (by simp) j hjord hrem
  rw [List.nil_append] at hi
  have hilt : i < cands.length :=
    List.mem_range.mp ((sortDesc_perm sc _).mem_iff.mp
      (nmsAux_subset cands idxs t _ [] i hi))
  have himem : cands.getD i cand0 ∈ cands := by
    rw [List.getD_eq_getElem?_getD, List.getElem?_eq_getElem hilt]
    exact List.getElem_mem hilt
  have hjmem : cands.getD j cand0 ∈ cands := by
    rw [List.getD_eq_getElem?_getD, List.getElem?_eq_getElem hj]
    exact List.getElem_mem hj
  have hidx' : (cands.getD i cand0).batch * K + (cands.getD i cand0).cls =
      (cands.getD j cand0).batch * K + (cands.getD j cand0).cls := by
    rw [hidxs] at hidx
    rwa [getD_map_of_lt _ cands i hilt 0 cand0, getD_map_of_lt _ cands j hj 0 cand0] at hidx
  have hci : (cands.getD i cand0).cls < K := hclsK _ himem
  have hcj : (cands.getD j cand0).cls < K := hclsK _ hjmem
  have hcls_eq : (cands.getD i cand0).cls = (cands.getD j cand0).cls := by
    have e1 : ((cands.getD i cand0).batch * K + (cands.getD i cand0).cls) % K =
        (cands.getD i cand0).cls := by
      rw [Nat.mul_comm, Nat.mul_add_mod]
      exact Nat.mod_eq_of_lt hci
    have e2 : ((cands.getD j cand0).batch * K + (cands.getD j cand0).cls) % K =
        (cands.getD j cand0).cls := by
      rw [Nat.mul_comm, Nat.mul_add_mod]
      exact Nat.mod_eq_of_lt hcj
    rw [← e1, hidx', e2]
  have hbatch_eq : (cands.getD i cand0).batch = (cands.getD j cand0).batch := by
    have : (cands.getD i cand0).batch * K = (cands.getD j cand0).batch * K := by
      omega
    exact Nat.eq_of_mul_eq_mul_right hKpos this
  have hscaled : (cands.getD j cand0).scaled ≤ (cands.getD i cand0).scaled := by
    rw [hsc] at hsc'
    simp only at hsc'
    rwa [getD_map_of_lt Cand.scaled cands i hilt 0 cand0,
      getD_map_of_lt Cand.scaled cands j hj 0 cand0] at hsc'
  exact ⟨i, by rw [hkeep]; exact hi, hbatch_eq, hcls_eq, hiou, hscaled⟩

/-- C4 witness: the grouping property instantiated at a concrete one-level
input whose class-channel count matches the first level's. -/
theorem fcos_postprocess_nms_grouping_witness :
    (allCandidates false id id (1 / 20) 10 10 [1] [constHeatmap 1] [regHeatmap]
        [constHeatmap 1] =
      allCandidates false id id (1 / 20) 10 10 [1] [constHeatmap 1] [regHeatmap]
        [constHeatmap 1]) ∧
    (∀ lc ∈ ([constHeatmap 1] : List Heatmap), lc.c = 1) ∧
    (∀ j, j < (allCandidates false id id (1 / 20) 10 10 [1] [constHeatmap 1] [regHeatmap]
        [constHeatmap 1]).length →
      j ∉ postprocessKept (allCandidates false id id (1 / 20) 10 10 [1] [constHeatmap 1]
        [regHeatmap] [constHeatmap 1]) 1 (1 / 4) →
      ∃ i, i ∈ postprocessKept (allCandidates false id id (1 / 20) 10 10 [1]
          [constHeatmap 1] [regHeatmap] [constHeatmap 1]) 1 (1 / 4) ∧
        ((allCandidates false id id (1 / 20) 10 10 [1] [constHeatmap 1] [regHeatmap]
            [constHeatmap 1]).getD i cand0).batch =
          ((allCandidates false id id (1 / 20) 10 10 [1] [constHeatmap 1] [regHeatmap]
            [constHeatmap 1]).getD j cand0).batch ∧
        ((allCandidates false id id (1 / 20) 10 10 [1] [constHeatmap 1] [regHeatmap]
            [constHeatmap 1]).getD i cand0).cls =
          ((allCandidates false id id (1 / 20) 10 10 [1] [constHeatmap 1] [regHeatmap]
            [constHeatmap 1]).getD j cand0).cls ∧
        (1 / 4 : ℚ) < iou ((allCandidates false id id (1 / 20) 10 10 [1] [constHeatmap 1]
            [regHeatmap] [constHeatmap 1]).getD i cand0)
          ((allCandidates false id id (1 / 20) 10 10 [1] [constHeatmap 1] [regHeatmap]
            [constHeatmap 1]).getD j cand0) ∧
        ((allCandidates false id id (1 / 20) 10 10 [1] [constHeatmap 1] [regHeatmap]
            [constHeatmap 1]).getD j cand0).scaled ≤
          ((allCandidates false id id (1 / 20) 10 10 [1] [constHeatmap 1] [regHeatmap]
            [constHeatmap 1]).getD i cand0).scaled) :=
  ⟨rfl,
    fun lc hlc => by rw [List.mem_singleton.mp hlc]; rfl,
    fcos_postprocess_nms_grouping false id id (1 / 20) 10 10 [1] [constHeatmap 1]
      [regHeatmap] [constHeatmap 1] _ 1 (1 / 4) rfl
      (fun lc hlc => by rw [List.mem_singleton.mp hlc]; rfl)⟩

/-- C6: at every FPN level, `BaseFCOSDecoder.forward` returns a
classification map with `num_classes` channels whose values are the raw
classification-trunk outputs (the final activation is the identity), a
centerness map that is exactly channel 0 of the shared regression head's
output with no activation, and a regression map equal to `reg_activation`
applied to channels `1 .. num_regressions` of that same regression head
output; `FCOSDecoder.__init__` instantiates this with 4 regression channels
and ReLU regression activation. -/
theorem fcos_forward_heads (d : BaseFCOSDecoder) (fpn : List Heatmap) (i : Nat)
    (f : Heatmap) (hf : fpn[i]? = some f) :
    ((d.forward fpn).1[i]? = some (d.cls_head.applyLevel f) ∧
      (d.cls_head.applyLevel f).c = d.num_classes ∧
      (∀ b c y x, (d.cls_head.applyLevel f).val b c y x = (d.cls_trunk f).val b c y x)) ∧
    ((d.forward fpn).2.2[i]? = some (sliceChannels 0 1 (d.reg_head.applyLevel f)) ∧
      (sliceChannels 0 1 (d.reg_head.applyLevel f)).c = 1 ∧
      (∀ b c y x, (sliceChannels 0 1 (d.reg_head.applyLevel f)).val b c y x =
        (d.reg_trunk f).val b c y x)) ∧
    ((d.forward fpn).2.1[i]? = some (mapHeatmap d.reg_activation
        (sliceChannels 1 (d.num_regressions + 1) (d.reg_head.applyLevel f))) ∧
      (mapHeatmap d.reg_activation
        (sliceChannels 1 (d.num_regressions + 1) (d.reg_head.applyLevel f))).c =
        d.num_regressions ∧
      (∀ b c y x, (mapHeatmap d.reg_activation
          (sliceChannels 1 (d.num_regressions + 1) (d.reg_head.applyLevel f))).val b c y x =
        d.reg_activation ((d.reg_trunk f).val b (c + 1) y x))) ∧
    (∀ (K : Nat) (ctk rtk : Heatmap → Heatmap),
      (FCOSDecoder.make K ctk rtk).num_regressions = 4 ∧
      (FCOSDecoder.make K ctk rtk).reg_activation = relu ∧
      (FCOSDecoder.make K ctk rtk).num_classes = K) := by
  refine ⟨⟨?_, rfl, fun b c y x => rfl⟩, ⟨?_, rfl, fun b c y x => rfl⟩,
    ⟨?_, ?_, fun b c y x => rfl⟩, fun K ctk rtk => ⟨rfl, rfl, rfl⟩⟩
  · show (fpn.map d.cls_head.applyLevel)[i]? = _
    rw [List.getElem?_map, hf]
    rfl
  · show ((fpn.map d.reg_head.applyLevel).map (sliceChannels 0 1))[i]? = _
    rw [List.getElem?_map, List.getElem?_map, hf]
    rfl
  · show ((fpn.map d.reg_head.applyLevel).map _)[i]? = _
    rw [List.getElem?_map, List.getElem?_map, hf]
    rfl
  · show d.num_regressions + 1 - 1 = d.num_regressions
    exact Nat.succ_sub_one d.num_regressions

/-- C6 witness: a concrete decoder with identity trunks on a one-level FPN. -/
theorem fcos_forward_heads_witness :
    ([constHeatmap 5] : List Heatmap)[0]? = some (constHeatmap 5) ∧
    (((FCOSDecoder.make 2 id id).forward [constHeatmap 5]).1[0]? =
        some ((FCOSDecoder.make 2 id id).cls_head.applyLevel (constHeatmap 5)) ∧
      ((FCOSDecoder.make 2 id id).cls_head.applyLevel (constHeatmap 5)).c =
        (FCOSDecoder.make 2 id id).num_classes ∧
      (∀ b c y x, ((FCOSDecoder.make 2 id id).cls_head.applyLevel (constHeatmap 5)).val b c y x =
        ((FCOSDecoder.make 2 id id).cls_trunk (constHeatmap 5)).val b c y x)) ∧
    (((FCOSDecoder.make 2 id id).forward [constHeatmap 5]).2.2[0]? =
        some (sliceChannels 0 1 ((FCOSDecoder.make 2 id id).reg_head.applyLevel (constHeatmap 5))) ∧
      (sliceChannels 0 1 ((FCOSDecoder.make 2 id id).reg_head.applyLevel (constHeatmap 5))).c = 1 ∧
      (∀ b c y x, (sliceChannels 0 1
          ((FCOSDecoder.make 2 id id).reg_head.applyLevel (constHeatmap 5))).val b c y x =
        ((FCOSDecoder.make 2 id id).reg_trunk (constHeatmap 5)).val b c y x)) ∧
    (((FCOSDecoder.make 2 id id).forward [constHeatmap 5]).2.1[0]? =
        some (mapHeatmap (FCOSDecoder.make 2 id id).reg_activation
          (sliceChannels 1 ((FCOSDecoder.make 2 id id).num_regressions + 1)
            ((FCOSDecoder.make 2 id id).reg_head.applyLevel (constHeatmap 5)))) ∧
      (mapHeatmap (FCOSDecoder.make 2 id id).reg_activation
        (sliceChannels 1 ((FCOSDecoder.make 2 id id).num_regressions + 1)
          ((FCOSDecoder.make 2 id id).reg_head.applyLevel (constHeatmap 5)))).c =
        (FCOSDecoder.make 2 id id).num_regressions ∧
      (∀ b c y x, (mapHeatmap (FCOSDecoder.make 2 id id).reg_activation
          (sliceChannels 1 ((FCOSDecoder.make 2 id id).num_regressions + 1)
            ((FCOSDecoder.make 2 id id).reg_head.applyLevel (constHeatmap 5)))).val b c y x =
        (FCOSDecoder.make 2 id id).reg_activation
          (((FCOSDecoder.make 2 id id).reg_trunk (constHeatmap 5)).val b (c + 1) y x))) ∧
    (∀ (K : Nat) (ctk rtk : Heatmap → Heatmap),
      (FCOSDecoder.make K ctk rtk).num_regressions = 4 ∧
      (FCOSDecoder.make K ctk rtk).reg_activation = relu ∧
      (FCOSDecoder.make K ctk rtk).num_classes = K) :=
  ⟨rfl, fcos_forward_heads (FCOSDecoder.make 2 id id) [constHeatmap 5] 0 (constHeatmap 5) rfl⟩

/-- C8: for inputs `low_level : (N, C_l, H_l, W_l)` and
`high_level : (N, C_h, H_h, W_h)`, `_AttentionUpsample.forward` returns a
tensor of shape `(N, C_o, H_l, W_l)` equal to `high' + low' * w`, where
`low'` is the low-level input through padded convolution, batch norm and the
low activation; `w` is the attention weight from the high-level path (global
average pool when `pool = true`, then pointwise convolution and the high
activation, upsampled alongside `high'` when `pool = false` and the spatial
sizes differ); and `high'` is the high-level input (pointwise-convolved)
bilinearly upsampled to `(H_l, W_l)` whenever its spatial size differs from
`low_level`'s. -/
theorem attention_upsample_forward_spec (m : AttentionUpsample) (co : Nat)
    (low_level high_level : Heatmap)
    (hlc : MapsChannelsTo m.lowConv co) (hbn : PreservesShape m.batchNorm)
    (hla : PreservesShape m.lowAct) (hwc : MapsChannelsTo m.weightConv co)
    (hha : PreservesShape m.highAct) (hhc : MapsChannelsTo m.highConv co)
    (hint : InterpContract m.interp)
    (hb : high_level.b = low_level.b) (hh : 1 ≤ low_level.h) (hw : 1 ≤ low_level.w) :
    (m.forward low_level high_level).b = low_level.b ∧
    (m.forward low_level high_level).c = co ∧
    (m.forward low_level high_level).h = low_level.h ∧
    (m.forward low_level high_level).w = low_level.w ∧
    m.forward low_level high_level =
      tadd
        (if ((m.highConv high_level).h, (m.highConv high_level).w) ≠
            (low_level.h, low_level.w) then
          m.interp (m.highConv high_level) low_level.h low_level.w
        else m.highConv high_level)
        (tmul (m.lowAct (m.batchNorm (m.lowConv low_level)))
          (if m.poolFlag then
            m.highAct (m.weightConv (adaptiveAvgPool1 high_level))
          else if ((m.highConv high_level).h, (m.highConv high_level).w) ≠
              (low_level.h, low_level.w) then
            m.interp (m.highAct (m.weightConv high_level)) low_level.h low_level.w
          else m.highAct (m.weightConv high_level))) := by
  have hLb : (m.lowAct (m.batchNorm (m.lowConv low_level))).b = low_level.b := by
    rw [(hla _).1, (hbn _).1, (hlc _).1]
  have hLc : (m.lowAct (m.batchNorm (m.lowConv low_level))).c = co := by
    rw [(hla _).2.1, (hbn _).2.1, (hlc _).2.1]
  have hLh : (m.lowAct (m.batchNorm (m.lowConv low_level))).h = low_level.h := by
    rw [(hla _).2.2.1, (hbn _).2.2.1, (hlc _).2.2.1]
  have hLw : (m.lowAct (m.batchNorm (m.lowConv low_level))).w = low_level.w := by
    rw [(hla _).2.2.2, (hbn _).2.2.2, (hlc _).2.2.2]
  have heq : m.forward low_level high_level =
      tadd
        (if ((m.highConv high_level).h, (m.highConv high_level).w) ≠
            (low_level.h, low_level.w) then
          m.interp (m.highConv high_level) low_level.h low_level.w
        else m.highConv high_level)
        (tmul (m.lowAct (m.batchNorm (m.lowConv low_level)))
          (if m.poolFlag then
            m.highAct (m.weightConv (adaptiveAvgPool1 high_level))
          else if ((m.highConv high_level).h, (m.highConv high_level).w) ≠
              (low_level.h, low_level.w) then
            m.interp (m.highAct (m.weightConv high_level)) low_level.h low_level.w
          else m.highAct (m.weightConv high_level))) := by
    simp only [AttentionUpsample.forward]
    rw [hLh, hLw]
    cases hp : m.poolFlag <;>
      by_cases hcond : ((m.highConv high_level).h, (m.highConv high_level).w) ≠
        (low_level.h, low_level.w) <;>
      simp [hcond]
  -- shape of the aligned high-level term
  have hHb : (if ((m.highConv high_level).h, (m.highConv high_level).w) ≠
      (low_level.h, low_level.w) then
        m.interp (m.highConv high_level) low_level.h low_level.w
      else m.highConv high_level).b = low_level.b := by
    split
    · rw [(hint _ _ _).1, (hhc _).1, hb]
    · rw [(hhc _).1, hb]
  have hHc : (if ((m.highConv high_level).h, (m.highConv high_level).w) ≠
      (low_level.h, low_level.w) then
        m.interp (m.highConv high_level) low_level.h low_level.w
      else m.highConv high_level).c = co := by
    split
    · rw [(hint _ _ _).2.1, (hhc _).2.1]
    · exact (hhc _).2.1
  have hHh : (if ((m.highConv high_level).h, (m.highConv high_level).w) ≠
      (low_level.h, low_level.w) then
        m.interp (m.highConv high_level) low_level.h low_level.w
      else m.highConv high_level).h = low_level.h := by
    split
    · exact (hint _ _ _).2.2.1
    · next hcond =>
      exact (Prod.mk.injEq _ _ _ _ |>.mp (not_not.mp hcond)).1
  have hHw : (if ((m.highConv high_level).h, (m.highConv high_level).w) ≠
      (low_level.h, low_level.w) then
        m.interp (m.highConv high_level) low_level.h low_level.w
      else m.highConv high_level).w = low_level.w := by
    split
    · exact (hint _ _ _).2.2.2
    · next hcond =>
      exact (Prod.mk.injEq _ _ _ _ |>.mp (not_not.mp hcond)).2
  -- shape of the attention-weight term
  have hWb : (if m.poolFlag then
        m.highAct (m.weightConv (adaptiveAvgPool1 high_level))
      else if ((m.highConv high_level).h, (m.highConv high_level).w) ≠
          (low_level.h, low_level.w) then
        m.interp (m.highAct (m.weightConv high_level)) low_level.h low_level.w
      else m.highAct (m.weightConv high_level)).b = low_level.b := by
    split
    · rw [(hha _).1, (hwc _).1]
      exact hb
    · split
      · rw [(hint _ _ _).1, (hha _).1, (hwc _).1, hb]
      · rw [(hha _).1, (hwc _).1, hb]
  have hWc : (if m.poolFlag then
        m.highAct (m.weightConv (adaptiveAvgPool1 high_level))
      else if ((m.highConv high_level).h, (m.highConv high_level).w) ≠
          (low_level.h, low_level.w) then
        m.interp (m.highAct (m.weightConv high_level)) low_level.h low_level.w
      else m.highAct (m.weightConv high_level)).c = co := by
    split
    · rw [(hha _).2.1]
      exact (hwc _).2.1
    · split
      · rw [(hint _ _ _).2.1, (hha _).2.1]
        exact (hwc _).2.1
      · rw [(hha _).2.1]
        exact (hwc _).2.1
  have hWh : max low_level.h (if m.poolFlag then
        m.highAct (m.weightConv (adaptiveAvgPool1 high_level))
      else if ((m.highConv high_level).h, (m.highConv high_level).w) ≠
          (low_level.h, low_level.w) then
        m.interp (m.highAct (m.weightConv high_level)) low_level.h low_level.w
      else m.highAct (m.weightConv high_level)).h = low_level.h := by
    split
    · rw [(hha _).2.2.1, (hwc _).2.2.1]
      exact Nat.max_eq_left hh
    · split
      · rw [(hint _ _ _).2.2.1]
        exact Nat.max_self _
      · next hcond =>
        rw [(hha _).2.2.1, (hwc _).2.2.1,
          ← (Prod.mk.injEq _ _ _ _ |>.mp (not_not.mp hcond)).1, (hhc _).2.2.1]
        exact Nat.max_self _
  have hWw : max low_level.w (if m.poolFlag then
        m.highAct (m.weightConv (adaptiveAvgPool1 high_level))
      else if ((m.highConv high_level).h, (m.highConv high_level).w) ≠
          (low_level.h, low_level.w) then
        m.interp (m.highAct (m.weightConv high_level)) low_level.h low_level.w
      else m.highAct (m.weightConv high_level)).w = low_level.w := by
    split
    · rw [(hha _).2.2.2, (hwc _).2.2.2]
      exact Nat.max_eq_left hw
    · split
      · rw [(hint _ _ _).2.2.2]
        exact Nat.max_self _
      · next hcond =>
        rw [(hha _).2.2.2, (hwc _).2.2.2,
          ← (Prod.mk.injEq _ _ _ _ |>.mp (not_not.mp hcond)).2, (hhc _).2.2.2]
        exact Nat.max_self _
  refine ⟨?_, ?_, ?_, ?_, heq⟩ <;> rw [heq]
  · show max _ (max _ _) = _
    rw [hHb, hLb, hWb]
    simp
  · show max _ (max _ _) = _
    rw [hHc, hLc, hWc]
    simp
  · show max _ (max _ _) = _
    rw [hHh, hLh, hWh]
    simp
  · show max _ (max _ _) = _
    rw [hHw, hLw, hWw]
    simp

/-- A concrete attention-upsample block used by the C8 witness: `C_o = 3`,
spatial-size-preserving layer stand-ins satisfying the framework contracts. -/
def gauFixture : AttentionUpsample :=
  { poolFlag := true
    lowConv := fun t => { t with c := 3 }
    batchNorm := fun t => t
    lowAct := fun t => t
    weightConv := fun t => { t with c := 3 }
    highAct := fun t => t
    highConv := fun t => { t with c := 3 }
    interp := fun t hh ww => { t with h := hh, w := ww } }

/-- Concrete low-level input `(2, 5, 4, 6)` for the C8 witness. -/
def lowFixture : Heatmap := { b := 2, c := 5, h := 4, w := 6, val := fun _ _ _ _ => 0 }

/-- Concrete high-level input `(2, 7, 1, 1)` for the C8 witness. -/
def highFixture : Heatmap := { b := 2, c := 7, h := 1, w := 1, val := fun _ _ _ _ => 1 }

/-- C8 witness: the forward specification instantiated at `gauFixture` on
concrete inputs whose spatial sizes differ. -/
theorem attention_upsample_forward_spec_witness :
    MapsChannelsTo gauFixture.lowConv 3 ∧ PreservesShape gauFixture.batchNorm ∧
    PreservesShape gauFixture.lowAct ∧ MapsChannelsTo gauFixture.weightConv 3 ∧
    PreservesShape gauFixture.highAct ∧ MapsChannelsTo gauFixture.highConv 3 ∧
    InterpContract gauFixture.interp ∧
    highFixture.b = lowFixture.b ∧ 1 ≤ lowFixture.h ∧ 1 ≤ lowFixture.w ∧
    ((gauFixture.forward lowFixture highFixture).b = lowFixture.b ∧
      (gauFixture.forward lowFixture highFixture).c = 3 ∧
      (gauFixture.forward lowFixture highFixture).h = lowFixture.h ∧
      (gauFixture.forward lowFixture highFixture).w = lowFixture.w ∧
      gauFixture.forward lowFixture highFixture =
        tadd
          (if ((gauFixture.highConv highFixture).h, (gauFixture.highConv highFixture).w) ≠
              (lowFixture.h, lowFixture.w) then
            gauFixture.interp (gauFixture.highConv highFixture) lowFixture.h lowFixture.w
          else gauFixture.highConv highFixture)
          (tmul (gauFixture.lowAct (gauFixture.batchNorm (gauFixture.lowConv lowFixture)))
            (if gauFixture.poolFlag then
              gauFixture.highAct (gauFixture.weightConv (adaptiveAvgPool1 highFixture))
            else if ((gauFixture.highConv highFixture).h,
                (gauFixture.highConv highFixture).w) ≠ (lowFixture.h, lowFixture.w) then
              gauFixture.interp (gauFixture.highAct (gauFixture.weightConv highFixture))
                lowFixture.h lowFixture.w
            else gauFixture.highAct (gauFixture.weightConv highFixture)))) :=
  ⟨fun t => ⟨rfl, rfl, rfl, rfl⟩, fun t => ⟨rfl, rfl, rfl, rfl⟩,
    fun t => ⟨rfl, rfl, rfl, rfl⟩, fun t => ⟨rfl, rfl, rfl, rfl⟩,
    fun t => ⟨rfl, rfl, rfl, rfl⟩, fun t => ⟨rfl, rfl, rfl, rfl⟩,
    fun t hh ww => ⟨rfl, rfl, rfl, rfl⟩, rfl, by decide, by decide,
    attention_upsample_forward_spec gauFixture 3 lowFixture highFixture
      (fun t => ⟨rfl, rfl, rfl, rfl⟩) (fun t => ⟨rfl, rfl, rfl, rfl⟩)
      (fun t => ⟨rfl, rfl, rfl, rfl⟩) (fun t => ⟨rfl, rfl, rfl, rfl⟩)
      (fun t => ⟨rfl, rfl, rfl, rfl⟩) (fun t => ⟨rfl, rfl, rfl, rfl⟩)
      (fun t hh ww => ⟨rfl, rfl, rfl, rfl⟩) rfl (by decide) (by decide)⟩

end Combustion
